import Mathlib

/-!
Shallow embedding of `src/generate_signature.py` (webhook signature
authentication subsystem).  Python strings are modelled as `List Char`
(sequences of Unicode code points), byte strings as `List Nat` with every
element `< 256`.  Machine 32-bit arithmetic inside SHA-256 is modelled on
`Nat` with explicit reduction modulo `2 ^ 32`.
-/

namespace Webhook

/-- 2^32, the modulus of 32-bit machine arithmetic used by SHA-256. -/
def M32 : Nat := 4294967296

/-- Truncate to a 32-bit word. -/
def w32 (n : Nat) : Nat := n % M32

/-- 32-bit rotate right by `k` of a word `x < 2^32`. -/
def rotr (k x : Nat) : Nat := w32 ((x >>> k) ||| (x <<< (32 - k)))

/-- SHA-256 `Ch` function. -/
def ch (x y z : Nat) : Nat := (x &&& y) ^^^ ((x ^^^ 4294967295) &&& z)

/-- SHA-256 `Maj` function. -/
def maj (x y z : Nat) : Nat := (x &&& y) ^^^ (x &&& z) ^^^ (y &&& z)

/-- SHA-256 big sigma 0. -/
def bigS0 (x : Nat) : Nat := rotr 2 x ^^^ rotr 13 x ^^^ rotr 22 x

/-- SHA-256 big sigma 1. -/
def bigS1 (x : Nat) : Nat := rotr 6 x ^^^ rotr 11 x ^^^ rotr 25 x

/-- SHA-256 small sigma 0. -/
def smallS0 (x : Nat) : Nat := rotr 7 x ^^^ rotr 18 x ^^^ (x >>> 3)

/-- SHA-256 small sigma 1. -/
def smallS1 (x : Nat) : Nat := rotr 17 x ^^^ rotr 19 x ^^^ (x >>> 10)

/-- The 64 SHA-256 round constants (FIPS 180-4), written in decimal. -/
def K : List Nat :=
  [1116352408, 1899447441, 3049323471, 3921009573, 961987163, 1508970993,
   2453635748, 2870763221, 3624381080, 310598401, 607225278, 1426881987,
   1925078388, 2162078206, 2614888103, 3248222580, 3835390401, 4022224774,
   264347078, 604807628, 770255983, 1249150122, 1555081692, 1996064986,
   2554220882, 2821834349, 2952996808, 3210313671, 3336571891, 3584528711,
   113926993, 338241895, 666307205, 773529912, 1294757372, 1396182291,
   1695183700, 1986661051, 2177026350, 2456956037, 2730485921, 2820302411,
   3259730800, 3345764771, 3516065817, 3600352804, 4094571909, 275423344,
   430227734, 506948616, 659060556, 883997877, 958139571, 1322822218,
   1537002063, 1747873779, 1955562222, 2024104815, 2227730452, 2361852424,
   2428436474, 2756734187, 3204031479, 3329325298]

/-- SHA-256 working state / hash value: eight 32-bit words. -/
structure H8 where
  a : Nat
  b : Nat
  c : Nat
  d : Nat
  e : Nat
  f : Nat
  g : Nat
  h : Nat
deriving Repr, DecidableEq

/-- The SHA-256 initial hash value (FIPS 180-4), written in decimal. -/
def H0 : H8 :=
  ⟨1779033703, 3144134277, 1013904242, 2773480762,
   1359893119, 2600822924, 528734635, 1541459225⟩

/-- One round of the SHA-256 compression function. -/
def round (st : H8) (kw : Nat × Nat) : H8 :=
  let t1 := w32 (st.h + bigS1 st.e + ch st.e st.f st.g + kw.1 + kw.2)
  let t2 := w32 (bigS0 st.a + maj st.a st.b st.c)
  ⟨w32 (t1 + t2), st.a, st.b, st.c, w32 (st.d + t1), st.e, st.f, st.g⟩

/-- The first 16 words of the message schedule, big-endian from a 64-byte block. -/
def blockWords (blk : List Nat) : List Nat :=
  (List.range 16).map fun i =>
    blk.getD (4 * i) 0 * 16777216 + blk.getD (4 * i + 1) 0 * 65536 +
      blk.getD (4 * i + 2) 0 * 256 + blk.getD (4 * i + 3) 0

/-- Extend the 16-word schedule to 64 words. -/
def extendW (ws0 : List Nat) : List Nat :=
  (List.range 48).foldl
    (fun ws _ =>
      let n := ws.length
      ws ++ [w32 (smallS1 (ws.getD (n - 2) 0) + ws.getD (n - 7) 0 +
                  smallS0 (ws.getD (n - 15) 0) + ws.getD (n - 16) 0)])
    ws0

/-- The SHA-256 compression function over one 64-byte block. -/
def compress (H : H8) (blk : List Nat) : H8 :=
  let ws := extendW (blockWords blk)
  let st := (K.zip ws).foldl round H
  ⟨w32 (H.a + st.a), w32 (H.b + st.b), w32 (H.c + st.c), w32 (H.d + st.d),
   w32 (H.e + st.e), w32 (H.f + st.f), w32 (H.g + st.g), w32 (H.h + st.h)⟩

/-- Big-endian bytes of a `k`-byte unsigned integer. -/
def natBytesBE (k n : Nat) : List Nat :=
  (List.range k).map fun i => (n >>> (8 * (k - 1 - i))) % 256

/-- SHA-256 padding: append `0x80`, zero bytes to 56 mod 64, and the 8-byte
big-endian bit length. -/
def padMsg (msg : List Nat) : List Nat :=
  let L := msg.length
  msg ++ [128] ++ List.replicate ((119 - L % 64) % 64) 0 ++ natBytesBE 8 (8 * L)

/-- Split a byte list into 64-byte chunks; the fuel argument (always at least
the list length, which bounds the number of chunks) keeps the recursion
structural. -/
def chunks64Aux : Nat → List Nat → List (List Nat)
  | _, [] => []
  | 0, _ :: _ => []
  | fuel + 1, x :: l => ((x :: l).take 64) :: chunks64Aux fuel ((x :: l).drop 64)

/-- Split a byte list into 64-byte chunks. -/
def chunks64 (l : List Nat) : List (List Nat) := chunks64Aux l.length l

/-- Big-endian bytes of one 32-bit word. -/
def wordBytes (w : Nat) : List Nat := [(w >>> 24) % 256, (w >>> 16) % 256, (w >>> 8) % 256, w % 256]

/-- SHA-256 of a byte list, as 32 bytes. -/
def sha256 (msg : List Nat) : List Nat :=
  let fin := (chunks64 (padMsg msg)).foldl compress H0
  wordBytes fin.a ++ wordBytes fin.b ++ wordBytes fin.c ++ wordBytes fin.d ++
    wordBytes fin.e ++ wordBytes fin.f ++ wordBytes fin.g ++ wordBytes fin.h

/-- HMAC-SHA256 (`hmac.new(key, msg, hashlib.sha256)`): block size 64; keys
longer than one block are first hashed. -/
def hmacSha256 (key msg : List Nat) : List Nat :=
  let k0 := if key.length > 64 then sha256 key else key
  let kp := k0 ++ List.replicate (64 - k0.length) 0
  let ipadded := kp.map fun b => b ^^^ 54
  let opadded := kp.map fun b => b ^^^ 92
  sha256 (opadded ++ sha256 (ipadded ++ msg))

/-- One lowercase hexadecimal digit. -/
def hexDigit (n : Nat) : Char :=
  if n < 10 then Char.ofNat (48 + n) else Char.ofNat (87 + n)

/-- Two lowercase hex characters of one byte (`"%02x"`). -/
def byteHex (b : Nat) : List Char := [hexDigit (b / 16), hexDigit (b % 16)]

/-- `hexdigest()`: the bytes rendered as lowercase hexadecimal characters. -/
def hexdigest (bs : List Nat) : List Char := (bs.map byteHex).flatten

/-- UTF-8 encoding of one code point (`str.encode` on one character; Lean
`Char` excludes surrogates, exactly the code points Python refuses to encode). -/
def utf8Char (c : Char) : List Nat :=
  let n := c.toNat
  if n < 128 then [n]
  else if n < 2048 then [192 + n / 64, 128 + n % 64]
  else if n < 65536 then [224 + n / 4096, 128 + (n / 64) % 64, 128 + n % 64]
  else [240 + n / 262144, 128 + (n / 4096) % 64, 128 + (n / 64) % 64, 128 + n % 64]

/-- `str.encode(<utf-8>)`: UTF-8 bytes of a Python string. -/
def utf8 (s : List Char) : List Nat := (s.map utf8Char).flatten

/-- Python values that can appear inside the payload tree handed to
`json.dumps`: strings, ints, booleans, `None`, the non-finite floats
(`nan`, `inf`, `-inf`), lists, string-keyed dicts, and — standing for any
type the serializer rejects with `TypeError` — `bytes` blobs. -/
inductive PyVal where
  | str (s : List Char)
  | int (n : Int)
  | bool (b : Bool)
  | none
  | nan
  | inf
  | neginf
  | arr (xs : List PyVal)
  | obj (kvs : List (List Char × PyVal))
  | bytes (bs : List Nat)

/-- Four lowercase hex digits of a 16-bit value, for `\uXXXX` escapes. -/
def u16hex (n : Nat) : List Char :=
  [hexDigit ((n / 4096) % 16), hexDigit ((n / 256) % 16), hexDigit ((n / 16) % 16), hexDigit (n % 16)]

/-- JSON escaping of one character with `ensure_ascii=True` (the
`json.dumps` default): the two-character shortcuts, `\uXXXX` for other
characters outside `0x20..0x7e`, surrogate pairs beyond the BMP. -/
def escChar (c : Char) : List Char :=
  if c = '"' then ['\\', '"']
  else if c = '\\' then ['\\', '\\']
  else if c = Char.ofNat 8 then ['\\', 'b']
  else if c = Char.ofNat 9 then ['\\', 't']
  else if c = Char.ofNat 10 then ['\\', 'n']
  else if c = Char.ofNat 12 then ['\\', 'f']
  else if c = Char.ofNat 13 then ['\\', 'r']
  else if c.toNat < 32 ∨ c.toNat > 126 then
    if c.toNat < 65536 then '\\' :: 'u' :: u16hex c.toNat
    else
      let m := c.toNat - 65536
      '\\' :: 'u' :: u16hex (55296 + m / 1024) ++ '\\' :: 'u' :: u16hex (56320 + m % 1024)
  else [c]

/-- A JSON string literal: quoted, characters escaped. -/
def encStr (s : List Char) : List Char := '"' :: (s.map escChar).flatten ++ ['"']

/-- Decimal digits of a natural number; the fuel argument (always at least
the number of digits) keeps the recursion structural. -/
def natDigitsAux : Nat → Nat → List Char
  | 0, _ => []
  | fuel + 1, n =>
    if n < 10 then [Char.ofNat (48 + n)]
    else natDigitsAux fuel (n / 10) ++ [Char.ofNat (48 + n % 10)]

/-- Decimal digits of a natural number. -/
def natDigits (n : Nat) : List Char := natDigitsAux (n + 1) n

/-- `repr` of a Python int. -/
def intRepr (n : Int) : List Char :=
  if n < 0 then '-' :: natDigits n.natAbs else natDigits n.natAbs

/-- Join serialized items with the item separator `,` (the first component of
`separators=(<comma>, <colon>)`), exactly as the serializer emits them. -/
def joinComma : List (List Char) → List Char
  | [] => []
  | [x] => x
  | x :: y :: rest => x ++ ',' :: joinComma (y :: rest)

mutual

/-- `json.dumps(·, separators=(<comma>, <colon>))` on one value; `Option.none`
models the `TypeError` raised on an unserializable value kind.  Note
`allow_nan` is left at its default `True`, so the non-finite floats are
serialized as the tokens `NaN`, `Infinity`, `-Infinity`. -/
def dumpsVal : PyVal → Option (List Char)
  | PyVal.str s => some (encStr s)
  | PyVal.int n => some (intRepr n)
  | PyVal.bool true => some ('t' :: 'r' :: 'u' :: 'e' :: [])
  | PyVal.bool false => some ('f' :: 'a' :: 'l' :: 's' :: 'e' :: [])
  | PyVal.none => some ('n' :: 'u' :: 'l' :: 'l' :: [])
  | PyVal.nan => some ('N' :: 'a' :: 'N' :: [])
  | PyVal.inf => some ('I' :: 'n' :: 'f' :: 'i' :: 'n' :: 'i' :: 't' :: 'y' :: [])
  | PyVal.neginf => some ('-' :: 'I' :: 'n' :: 'f' :: 'i' :: 'n' :: 'i' :: 't' :: 'y' :: [])
  | PyVal.bytes _ => Option.none
  | PyVal.arr xs =>
    match dumpsArr xs with
    | Option.none => Option.none
    | some parts => some ('[' :: joinComma parts ++ [']'])
  | PyVal.obj kvs =>
    match dumpsObjItems kvs with
    | Option.none => Option.none
    | some parts => some ('{' :: joinComma parts ++ ['}'])

/-- Serialize array elements in order; fails when any element fails. -/
def dumpsArr : List PyVal → Option (List (List Char))
  | [] => some []
  | x :: xs =>
    match dumpsVal x, dumpsArr xs with
    | some cx, some cxs => some (cx :: cxs)
    | _, _ => Option.none

/-- Serialize `key:value` items in the caller-supplied order (no sorting);
fails when any value fails. -/
def dumpsObjItems : List (List Char × PyVal) → Option (List (List Char))
  | [] => some []
  | (k, v) :: rest =>
    match dumpsVal v, dumpsObjItems rest with
    | some cv, some crest => some ((encStr k ++ ':' :: cv) :: crest)
    | _, _ => Option.none

end

/-- The argument `generate_signature` receives as `payload`: the
`isinstance(payload, dict)` branch applies to dicts; anything else is used
as the payload string directly (the harness and the spec only ever pass a
dict or a pre-serialized string). -/
inductive PayloadArg where
  | dict (kvs : List (List Char × PyVal))
  | str (s : List Char)

/-- Lines 11-14 of `generate_signature.py`: the payload string — the compact
JSON dump for a dict, the argument verbatim otherwise. -/
def payloadStr : PayloadArg → Option (List Char)
  | PayloadArg.dict kvs => dumpsVal (PyVal.obj kvs)
  | PayloadArg.str s => some s

/-- `generate_signature(webhook_secret, payload)` from
`src/generate_signature.py`: serialize a dict payload compactly, UTF-8
encode secret and payload, return the HMAC-SHA256 hex digest.  `Option.none`
models an uncaught exception from `json.dumps`. -/
def generate_signature (webhook_secret : List Char) (payload : PayloadArg) :
    Option (List Char) :=
  match payloadStr payload with
  | Option.none => Option.none
  | some ps =>
    let secret_bytes := utf8 webhook_secret
    let payload_bytes := utf8 ps
    some (hexdigest (hmacSha256 secret_bytes payload_bytes))

/-- The Signer over canonical bytes, as embedded in lines 17-22 of the code:
`sign(secret, bytes)` is the HMAC-SHA256 hex digest of `bytes` keyed by the
UTF-8 encoding of `secret`. -/
def sign (secret : List Char) (canonicalBytes : List Nat) : List Char :=
  hexdigest (hmacSha256 (utf8 secret) canonicalBytes)

/-- Verification outcome. -/
inductive VerifyResult where
  | accept
  | reject
deriving DecidableEq

/-- Modelled from the spec: the Verifier is not present as standalone code in
`src/`; per spec section 4.3 it recomputes `expected = sign(secret, bytes)`
and accepts exactly when it equals the received signature (the constant-time
nature of the comparison is a timing property outside this functional model). -/
def verify (secret : List Char) (canonicalBytes : List Nat) (received : List Char) :
    VerifyResult :=
  if sign secret canonicalBytes = received then VerifyResult.accept else VerifyResult.reject

/-- A character of the regular-expression class `[0-9a-f]`. -/
def isHexLower (c : Char) : Bool :=
  (48 ≤ c.toNat && c.toNat ≤ 57) || (97 ≤ c.toNat && c.toNat ≤ 102)

/-- JSON insignificant-whitespace characters: space, tab, newline, carriage
return. -/
def isWsChar (c : Char) : Bool :=
  c == ' ' || c == Char.ofNat 9 || c == Char.ofNat 10 || c == Char.ofNat 13

/-- No character of the list is a whitespace character. -/
def wsFree (l : List Char) : Bool := l.all fun c => !(isWsChar c)

/-- A Python string with no space character (spaces inside payload strings
are significant and would survive into the canonical text). -/
def noSpaceStr (s : List Char) : Bool := s.all fun c => !(c == ' ')

mutual

/-- No string anywhere in the value contains a space character. -/
def noSpaceVal : PyVal → Bool
  | PyVal.str s => noSpaceStr s
  | PyVal.int _ => true
  | PyVal.bool _ => true
  | PyVal.none => true
  | PyVal.nan => true
  | PyVal.inf => true
  | PyVal.neginf => true
  | PyVal.bytes _ => true
  | PyVal.arr xs => noSpaceArr xs
  | PyVal.obj kvs => noSpaceObj kvs

/-- `noSpaceVal` over the elements of an array. -/
def noSpaceArr : List PyVal → Bool
  | [] => true
  | x :: xs => noSpaceVal x && noSpaceArr xs

/-- `noSpaceVal` over the keys and values of an object. -/
def noSpaceObj : List (List Char × PyVal) → Bool
  | [] => true
  | (k, v) :: rest => noSpaceStr k && noSpaceVal v && noSpaceObj rest

end

mutual

/-- Some subterm of the value is a `bytes` blob (a value kind `json.dumps`
rejects with `TypeError`). -/
def hasBytesVal : PyVal → Bool
  | PyVal.bytes _ => true
  | PyVal.str _ => false
  | PyVal.int _ => false
  | PyVal.bool _ => false
  | PyVal.none => false
  | PyVal.nan => false
  | PyVal.inf => false
  | PyVal.neginf => false
  | PyVal.arr xs => hasBytesArr xs
  | PyVal.obj kvs => hasBytesObj kvs

/-- `hasBytesVal` over the elements of an array. -/
def hasBytesArr : List PyVal → Bool
  | [] => false
  | x :: xs => hasBytesVal x || hasBytesArr xs

/-- `hasBytesVal` over the values of an object. -/
def hasBytesObj : List (List Char × PyVal) → Bool
  | [] => false
  | (_, v) :: rest => hasBytesVal v || hasBytesObj rest

end

/-- The canonical byte sequence hashed by `generate_signature` (lines 11-18):
UTF-8 encoding of the payload string. -/
def canonicalBytes (payload : PayloadArg) : Option (List Nat) :=
  (payloadStr payload).map utf8

theorem wsFree_mem {l : List Char} (h : wsFree l = true) : ∀ c ∈ l, isWsChar c = false := by
  intro c hc
  have := List.all_eq_true.mp h c hc
  simpa using this

theorem sha256_length (msg : List Nat) : (sha256 msg).length = 32 := by
  simp [sha256, wordBytes]

theorem sha256_mem_lt (msg : List Nat) : ∀ b ∈ sha256 msg, b < 256 := by
  intro b hb
  simp [sha256, wordBytes] at hb
  rcases hb with h | h | h | h | h | h | h | h <;>
    rcases h with h | h | h | h <;> omega

theorem hmacSha256_length (key msg : List Nat) : (hmacSha256 key msg).length = 32 := by
  simp only [hmacSha256]
  exact sha256_length _

theorem hmacSha256_mem_lt (key msg : List Nat) : ∀ b ∈ hmacSha256 key msg, b < 256 := by
  simp only [hmacSha256]
  exact sha256_mem_lt _

theorem hexdigest_cons (b : Nat) (bs : List Nat) :
    hexdigest (b :: bs) = byteHex b ++ hexdigest bs := by
  simp [hexdigest]

theorem hexdigest_length (bs : List Nat) : (hexdigest bs).length = 2 * bs.length := by
  induction bs with
  | nil => rfl
  | cons b bs ih => simp [hexdigest_cons, byteHex, ih]; omega

theorem hexDigit_hexLower : ∀ n, n < 16 → isHexLower (hexDigit n) = true := by decide

theorem hexdigest_all_hex (bs : List Nat) (h : ∀ b ∈ bs, b < 256) :
    (hexdigest bs).all isHexLower = true := by
  induction bs with
  | nil => rfl
  | cons b bs ih =>
    have hb : b < 256 := h b (by simp)
    have h1 : (byteHex b).all isHexLower = true := by
      simp only [byteHex, List.all_cons, List.all_nil, Bool.and_true]
      rw [Bool.and_eq_true]
      exact ⟨hexDigit_hexLower _ (by omega), hexDigit_hexLower _ (by omega)⟩
    rw [hexdigest_cons, List.all_append, h1, ih fun x hx => h x (by simp [hx])]
    rfl

theorem hexDigit_not_ws : ∀ n, n < 16 → isWsChar (hexDigit n) = false := by decide

theorem u16hex_not_ws (n : Nat) : ∀ c ∈ u16hex n, isWsChar c = false := by
  intro c hc
  simp [u16hex] at hc
  rcases hc with h | h | h | h <;> subst h <;> exact hexDigit_not_ws _ (by omega)

theorem uescape_not_ws (n : Nat) : ∀ d ∈ '\\' :: 'u' :: u16hex n, isWsChar d = false := by
  intro d hd
  rcases List.mem_cons.mp hd with h | hd
  · subst h; decide
  rcases List.mem_cons.mp hd with h | hd
  · subst h; decide
  exact u16hex_not_ws n d hd

theorem escChar_not_ws (c : Char) (hc : (c == ' ') = false) :
    ∀ d ∈ escChar c, isWsChar d = false := by
  intro d hd
  unfold escChar at hd
  split at hd
  next h1 => simp at hd; rcases hd with h | h <;> subst h <;> decide
  next h1 =>
  split at hd
  next h2 =>
    simp at hd
    subst hd
    decide
  next h2 =>
  split at hd
  next h3 => simp at hd; rcases hd with h | h <;> subst h <;> decide
  next h3 =>
  split at hd
  next h4 => simp at hd; rcases hd with h | h <;> subst h <;> decide
  next h4 =>
  split at hd
  next h5 => simp at hd; rcases hd with h | h <;> subst h <;> decide
  next h5 =>
  split at hd
  next h6 => simp at hd; rcases hd with h | h <;> subst h <;> decide
  next h6 =>
  split at hd
  next h7 => simp at hd; rcases hd with h | h <;> subst h <;> decide
  next h7 =>
  split at hd
  next h8 =>
    split at hd
    · exact uescape_not_ws _ d hd
    · rcases List.mem_cons.mp hd with h | hd'
      · subst h; decide
      rcases List.mem_cons.mp hd' with h | hd''
      · subst h; decide
      rcases List.mem_append.mp hd'' with h | h
      · exact u16hex_not_ws _ d h
      · exact uescape_not_ws _ d h
  next h8 =>
    simp only [List.mem_singleton] at hd
    subst hd
    simp only [isWsChar, Bool.or_eq_false_iff, beq_eq_false_iff_ne]
    exact ⟨⟨⟨by simpa using hc, h4⟩, h5⟩, h7⟩

theorem encStr_not_ws (s : List Char) (hs : noSpaceStr s = true) :
    ∀ d ∈ encStr s, isWsChar d = false := by
  intro d hd
  simp [encStr] at hd
  rcases hd with h | h | h
  · subst h; decide
  · rcases h with ⟨c, hc, hdc⟩
    have : (c == ' ') = false := by simpa using List.all_eq_true.mp hs c hc
    exact escChar_not_ws c this d hdc
  · subst h; decide

theorem digitChar_not_ws : ∀ n, n < 10 → isWsChar (Char.ofNat (48 + n)) = false := by decide

theorem natDigitsAux_not_ws (fuel : Nat) :
    ∀ (n : Nat), ∀ c ∈ natDigitsAux fuel n, isWsChar c = false := by
  induction fuel with
  | zero => intro n c hc; simp [natDigitsAux] at hc
  | succ fuel ih =>
    intro n c hc
    unfold natDigitsAux at hc
    split at hc
    · next h =>
      simp at hc
      subst hc
      exact digitChar_not_ws n h
    · next h =>
      simp at hc
      rcases hc with h' | h'
      · exact ih (n / 10) c h'
      · subst h'
        exact digitChar_not_ws _ (Nat.mod_lt _ (by omega))

theorem natDigits_not_ws (n : Nat) : ∀ c ∈ natDigits n, isWsChar c = false :=
  natDigitsAux_not_ws (n + 1) n

theorem intRepr_not_ws (n : Int) : ∀ c ∈ intRepr n, isWsChar c = false := by
  intro c hc
  unfold intRepr at hc
  split at hc
  · simp at hc
    rcases hc with h | h
    · subst h; decide
    · exact natDigits_not_ws _ c h
  · exact natDigits_not_ws _ c hc

theorem joinComma_mem :
    ∀ (parts : List (List Char)) (c : Char), c ∈ joinComma parts →
      c = ',' ∨ ∃ p ∈ parts, c ∈ p
  | [], c, hc => by simp [joinComma] at hc
  | [x], c, hc => Or.inr ⟨x, by simp, by simpa [joinComma] using hc⟩
  | x :: y :: rest, c, hc => by
    simp only [joinComma, List.mem_append, List.mem_cons] at hc
    rcases hc with h | h | h
    · exact Or.inr ⟨x, by simp, h⟩
    · exact Or.inl h
    · rcases joinComma_mem (y :: rest) c h with h' | ⟨p, hp, hcp⟩
      · exact Or.inl h'
      · exact Or.inr ⟨p, List.mem_cons_of_mem x hp, hcp⟩

mutual

/-- If serialization succeeds and no payload string contains a space, the
serialized text contains no whitespace character. -/
theorem dumpsVal_not_ws : ∀ (p : PyVal) (s : List Char), dumpsVal p = some s →
    noSpaceVal p = true → ∀ c ∈ s, isWsChar c = false
  | PyVal.str s0, s, h, hns => by
    simp only [dumpsVal, Option.some.injEq] at h
    subst h
    exact encStr_not_ws s0 (by simpa [noSpaceVal] using hns)
  | PyVal.int n, s, h, _ => by
    simp only [dumpsVal, Option.some.injEq] at h
    subst h
    exact intRepr_not_ws n
  | PyVal.bool true, s, h, _ => by
    simp only [dumpsVal, Option.some.injEq] at h
    subst h
    exact wsFree_mem (by decide)
  | PyVal.bool false, s, h, _ => by
    simp only [dumpsVal, Option.some.injEq] at h
    subst h
    exact wsFree_mem (by decide)
  | PyVal.none, s, h, _ => by
    simp only [dumpsVal, Option.some.injEq] at h
    subst h
    exact wsFree_mem (by decide)
  | PyVal.nan, s, h, _ => by
    simp only [dumpsVal, Option.some.injEq] at h
    subst h
    exact wsFree_mem (by decide)
  | PyVal.inf, s, h, _ => by
    simp only [dumpsVal, Option.some.injEq] at h
    subst h
    exact wsFree_mem (by decide)
  | PyVal.neginf, s, h, _ => by
    simp only [dumpsVal, Option.some.injEq] at h
    subst h
    exact wsFree_mem (by decide)
  | PyVal.bytes _, s, h, _ => by simp [dumpsVal] at h
  | PyVal.arr xs, s, h, hns => by
    simp only [dumpsVal] at h
    cases hax : dumpsArr xs with
    | none => rw [hax] at h; simp at h
    | some parts =>
      rw [hax] at h
      simp only [Option.some.injEq] at h
      subst h
      intro c hc
      rcases List.mem_cons.mp hc with h1 | hc'
      · subst h1; decide
      rcases List.mem_append.mp hc' with h1 | h1
      · rcases joinComma_mem parts c h1 with h2 | ⟨part, hpart, hcp⟩
        · subst h2; decide
        · exact dumpsArr_not_ws xs parts hax (by simpa [noSpaceVal] using hns) part hpart c hcp
      · simp only [List.mem_singleton] at h1; subst h1; decide
  | PyVal.obj kvs, s, h, hns => by
    simp only [dumpsVal] at h
    cases hok : dumpsObjItems kvs with
    | none => rw [hok] at h; simp at h
    | some parts =>
      rw [hok] at h
      simp only [Option.some.injEq] at h
      subst h
      intro c hc
      rcases List.mem_cons.mp hc with h1 | hc'
      · subst h1; decide
      rcases List.mem_append.mp hc' with h1 | h1
      · rcases joinComma_mem parts c h1 with h2 | ⟨part, hpart, hcp⟩
        · subst h2; decide
        · exact dumpsObjItems_not_ws kvs parts hok (by simpa [noSpaceVal] using hns) part hpart c hcp
      · simp only [List.mem_singleton] at h1; subst h1; decide

/-- `dumpsVal_not_ws` over serialized array elements. -/
theorem dumpsArr_not_ws : ∀ (xs : List PyVal) (parts : List (List Char)),
    dumpsArr xs = some parts → noSpaceArr xs = true →
    ∀ part ∈ parts, ∀ c ∈ part, isWsChar c = false
  | [], parts, h, _ => by
    simp only [dumpsArr, Option.some.injEq] at h
    subst h
    intro part hp
    simp at hp
  | x :: xs, parts, h, hns => by
    simp only [dumpsArr] at h
    cases hvx : dumpsVal x with
    | none => rw [hvx] at h; simp at h
    | some cx =>
      rw [hvx] at h
      cases hax : dumpsArr xs with
      | none => rw [hax] at h; simp at h
      | some cxs =>
        rw [hax] at h
        simp only [Option.some.injEq] at h
        subst h
        have hns' : noSpaceVal x = true ∧ noSpaceArr xs = true := by
          simpa [noSpaceArr, Bool.and_eq_true] using hns
        intro part hp c hc
        rcases List.mem_cons.mp hp with h1 | h1
        · subst h1; exact dumpsVal_not_ws x part hvx hns'.1 c hc
        · exact dumpsArr_not_ws xs cxs hax hns'.2 part h1 c hc

/-- `dumpsVal_not_ws` over serialized `key:value` items. -/
theorem dumpsObjItems_not_ws : ∀ (kvs : List (List Char × PyVal)) (parts : List (List Char)),
    dumpsObjItems kvs = some parts → noSpaceObj kvs = true →
    ∀ part ∈ parts, ∀ c ∈ part, isWsChar c = false
  | [], parts, h, _ => by
    simp only [dumpsObjItems, Option.some.injEq] at h
    subst h
    intro part hp
    simp at hp
  | (k, v) :: rest, parts, h, hns => by
    simp only [dumpsObjItems] at h
    cases hvv : dumpsVal v with
    | none => rw [hvv] at h; simp at h
    | some cv =>
      rw [hvv] at h
      cases hrest : dumpsObjItems rest with
      | none => rw [hrest] at h; simp at h
      | some crest =>
        rw [hrest] at h
        simp only [Option.some.injEq] at h
        subst h
        have hns' : (noSpaceStr k = true ∧ noSpaceVal v = true) ∧ noSpaceObj rest = true := by
          simpa [noSpaceObj, Bool.and_eq_true] using hns
        intro part hp c hc
        rcases List.mem_cons.mp hp with h1 | h1
        · subst h1
          rcases List.mem_append.mp hc with h2 | h2
          · exact encStr_not_ws k hns'.1.1 c h2
          · rcases List.mem_cons.mp h2 with h3 | h3
            · subst h3; decide
            · exact dumpsVal_not_ws v cv hvv hns'.1.2 c h3
        · exact dumpsObjItems_not_ws rest crest hrest hns'.2 part h1 c hc

end

mutual

/-- A payload containing a `bytes` blob anywhere cannot be serialized:
`json.dumps` raises `TypeError` (modelled `Option.none`). -/
theorem dumpsVal_bytes_none : ∀ p : PyVal, hasBytesVal p = true → dumpsVal p = Option.none
  | PyVal.bytes _, _ => rfl
  | PyVal.str _, h => by simp [hasBytesVal] at h
  | PyVal.int _, h => by simp [hasBytesVal] at h
  | PyVal.bool _, h => by simp [hasBytesVal] at h
  | PyVal.none, h => by simp [hasBytesVal] at h
  | PyVal.nan, h => by simp [hasBytesVal] at h
  | PyVal.inf, h => by simp [hasBytesVal] at h
  | PyVal.neginf, h => by simp [hasBytesVal] at h
  | PyVal.arr xs, h => by
    have hx := dumpsArr_bytes_none xs (by simpa [hasBytesVal] using h)
    simp [dumpsVal, hx]
  | PyVal.obj kvs, h => by
    have hk := dumpsObjItems_bytes_none kvs (by simpa [hasBytesVal] using h)
    simp [dumpsVal, hk]

/-- `dumpsVal_bytes_none` over arrays. -/
theorem dumpsArr_bytes_none : ∀ xs : List PyVal, hasBytesArr xs = true →
    dumpsArr xs = Option.none
  | [], h => by simp [hasBytesArr] at h
  | x :: xs, h => by
    simp only [hasBytesArr, Bool.or_eq_true] at h
    rcases h with h | h
    · have hx := dumpsVal_bytes_none x h
      simp [dumpsArr, hx]
    · have hx := dumpsArr_bytes_none xs h
      cases hvx : dumpsVal x <;> simp [dumpsArr, hvx, hx]

/-- `dumpsVal_bytes_none` over object values. -/
theorem dumpsObjItems_bytes_none : ∀ kvs : List (List Char × PyVal), hasBytesObj kvs = true →
    dumpsObjItems kvs = Option.none
  | [], h => by simp [hasBytesObj] at h
  | (k, v) :: rest, h => by
    simp only [hasBytesObj, Bool.or_eq_true] at h
    rcases h with h | h
    · have hv := dumpsVal_bytes_none v h
      simp [dumpsObjItems, hv]
    · have hv := dumpsObjItems_bytes_none rest h
      cases hvv : dumpsVal v <;> simp [dumpsObjItems, hvv, hv]

end

/-- The sample payload of the spec example scenario: key `a` mapped to the
int 1 and key `b` mapped to the string `x`, in that insertion order. -/
def samplePayload : List (List Char × PyVal) :=
  [("a".data, PyVal.int 1), ("b".data, PyVal.str "x".data)]

set_option maxRecDepth 400000 in
/-- Claim C1 counterexample: with the empty secret and payload string `x`,
`generate_signature` does not fail — it returns the HMAC-SHA256 signature
keyed by the empty byte string (value cross-checked against the reference
HMAC-SHA256 implementation).  There is no `InvalidSecretError` in the code. -/
theorem C1_counterexample :
    generate_signature "".data (PayloadArg.str "x".data) =
      some "4cbc96099a6467ce002461f10549b4898265ebe6188b45efacc44293516e62c4".data := by
  decide

/-- Claim C1 (amended): `generate_signature` performs no emptiness check on
the secret; with the empty secret, whenever payload serialization succeeds,
it silently returns the HMAC-SHA256 hex digest keyed by the empty byte
string. -/
theorem C1_empty_secret_signs : ∀ (payload : PayloadArg) (ps : List Char),
    payloadStr payload = some ps →
    generate_signature "".data payload = some (hexdigest (hmacSha256 [] (utf8 ps))) := by
  intro payload ps h
  unfold generate_signature
  rw [h]
  rfl

/-- Claim C1 (amended) witness at the payload string `x`. -/
theorem C1_empty_secret_signs_witness :
    payloadStr (PayloadArg.str "x".data) = some "x".data ∧
    generate_signature "".data (PayloadArg.str "x".data) =
      some (hexdigest (hmacSha256 [] (utf8 "x".data))) :=
  ⟨rfl, C1_empty_secret_signs (PayloadArg.str "x".data) "x".data rfl⟩

/-- Claim C2: the canonical byte sequence is the UTF-8 encoding of the
compact JSON text; structurally equal payloads canonicalize byte-identically;
when no payload string contains a space, the canonical text contains no
whitespace character at all (tab, newline and carriage return inside strings
are escaped away); object items are joined with the item separator comma and
the key/value separator colon and nothing else. -/
theorem C2_canonical_bytes :
    (∀ p q : PayloadArg, p = q → canonicalBytes p = canonicalBytes q) ∧
    (∀ (kvs : List (List Char × PyVal)) (s : List Char), dumpsVal (PyVal.obj kvs) = some s →
      canonicalBytes (PayloadArg.dict kvs) = some (utf8 s)) ∧
    (∀ (kvs : List (List Char × PyVal)) (s : List Char), dumpsVal (PyVal.obj kvs) = some s →
      noSpaceObj kvs = true → ∀ c ∈ s, isWsChar c = false) ∧
    (∀ (k : List Char) (v : PyVal) (kvs : List (List Char × PyVal)) (cv : List Char)
        (ckvs : List (List Char)),
      dumpsVal v = some cv → dumpsObjItems kvs = some ckvs →
      dumpsObjItems ((k, v) :: kvs) = some ((encStr k ++ ':' :: cv) :: ckvs)) := by
  refine ⟨fun p q h => by rw [h], fun kvs s h => by simp [canonicalBytes, payloadStr, h],
    ?_, fun k v kvs cv ckvs h1 h2 => by simp [dumpsObjItems, h1, h2]⟩
  intro kvs s h hns c hc
  exact dumpsVal_not_ws (PyVal.obj kvs) s h (by simpa [noSpaceVal] using hns) c hc

/-- Claim C2 witness at the sample payload. -/
theorem C2_canonical_bytes_witness :
    canonicalBytes (PayloadArg.dict samplePayload) =
      some (utf8 "\x7b\"a\":1,\"b\":\"x\"\x7d".data) ∧
    (∀ c ∈ "\x7b\"a\":1,\"b\":\"x\"\x7d".data, isWsChar c = false) :=
  ⟨C2_canonical_bytes.2.1 samplePayload "\x7b\"a\":1,\"b\":\"x\"\x7d".data (by decide),
   C2_canonical_bytes.2.2.1 samplePayload "\x7b\"a\":1,\"b\":\"x\"\x7d".data
     (by decide) (by decide)⟩

/-- Claim C3: every signature `generate_signature` returns is exactly 64
characters, all from the class `[0-9a-f]` (the hex encoding of the 256-bit
HMAC-SHA256 output). -/
theorem C3_signature_format : ∀ (secret : List Char) (payload : PayloadArg) (sig : List Char),
    secret ≠ [] → generate_signature secret payload = some sig →
    sig.length = 64 ∧ sig.all isHexLower = true := by
  intro secret payload sig _ h
  unfold generate_signature at h
  cases hps : payloadStr payload with
  | none => rw [hps] at h; simp at h
  | some ps =>
    rw [hps] at h
    simp only [Option.some.injEq] at h
    subst h
    constructor
    · rw [hexdigest_length, hmacSha256_length]
    · exact hexdigest_all_hex _ (hmacSha256_mem_lt _ _)

set_option maxRecDepth 400000 in
/-- Claim C3 witness: secret `k`, payload string `m` (value cross-checked
against the reference HMAC-SHA256 implementation). -/
theorem C3_signature_format_witness :
    ("b60090e3052297aeb5a080889ce2fc4bca957e756faeb4df7d31800ca1e771ec".data).length = 64 ∧
    ("b60090e3052297aeb5a080889ce2fc4bca957e756faeb4df7d31800ca1e771ec".data).all
      isHexLower = true :=
  C3_signature_format "k".data (PayloadArg.str "m".data)
    "b60090e3052297aeb5a080889ce2fc4bca957e756faeb4df7d31800ca1e771ec".data
    (by decide) (by decide)

set_option maxRecDepth 400000 in
/-- Claim C4 counterexample: a payload whose value is the non-finite float
`nan` is NOT rejected — `json.dumps` is called with its default
`allow_nan=True`, serializes it as the token `NaN`, and the payload is
signed (value cross-checked against the reference implementation). -/
theorem C4_counterexample :
    generate_signature "k".data (PayloadArg.dict [("a".data, PyVal.nan)]) =
      some "c90620e5355a28a20ad32d1035298bf91dd2ead2828230153cf125f756143dc8".data := by
  decide

/-- Claim C4 (amended): a payload containing a value kind the serializer
cannot represent (e.g. a binary blob) makes `generate_signature` fail
immediately with no signature produced; but non-finite numeric values are
not such a kind — they are serialized as the tokens `NaN`, `Infinity`,
`-Infinity` and signed normally. -/
theorem C4_serialization_errors :
    (∀ (secret : List Char) (kvs : List (List Char × PyVal)), hasBytesObj kvs = true →
      generate_signature secret (PayloadArg.dict kvs) = Option.none) ∧
    (∀ secret : List Char,
      generate_signature secret (PayloadArg.dict [("a".data, PyVal.nan)]) =
        some (hexdigest (hmacSha256 (utf8 secret) (utf8 "\x7b\"a\":NaN\x7d".data)))) := by
  constructor
  · intro secret kvs h
    have hd := dumpsVal_bytes_none (PyVal.obj kvs) (by simpa [hasBytesVal] using h)
    simp [generate_signature, payloadStr, hd]
  · intro secret
    rfl

/-- Claim C4 (amended) witness: a one-byte blob value makes signing fail. -/
theorem C4_serialization_errors_witness :
    hasBytesObj [("a".data, PyVal.bytes [0])] = true ∧
    generate_signature "k".data (PayloadArg.dict [("a".data, PyVal.bytes [0])]) =
      Option.none :=
  ⟨by decide, C4_serialization_errors.1 "k".data [("a".data, PyVal.bytes [0])] (by decide)⟩

/-- Claim C5: `generate_signature` is deterministic — two calls on identical
inputs agree, and the result is a pure function of the secret and the
payload string (hence of the canonical bytes) with no hidden state. -/
theorem C5_deterministic :
    (∀ (secret : List Char) (p : PayloadArg),
      generate_signature secret p = generate_signature secret p) ∧
    (∀ (secret : List Char) (p q : PayloadArg), payloadStr p = payloadStr q →
      generate_signature secret p = generate_signature secret q) := by
  refine ⟨fun _ _ => rfl, fun secret p q h => ?_⟩
  unfold generate_signature
  rw [h]

/-- Claim C5 witness: the dict sample payload and its pre-serialized string
have the same payload string, hence the same signature. -/
theorem C5_deterministic_witness :
    payloadStr (PayloadArg.dict samplePayload) =
      payloadStr (PayloadArg.str "\x7b\"a\":1,\"b\":\"x\"\x7d".data) ∧
    generate_signature "k".data (PayloadArg.dict samplePayload) =
      generate_signature "k".data (PayloadArg.str "\x7b\"a\":1,\"b\":\"x\"\x7d".data) :=
  ⟨by decide,
   C5_deterministic.2 "k".data (PayloadArg.dict samplePayload)
     (PayloadArg.str "\x7b\"a\":1,\"b\":\"x\"\x7d".data) (by decide)⟩

/-- Claim C6: the serializer emits object keys in the caller-supplied order
(the first-supplied item is emitted first, recursively) and never sorts;
concretely, the same key/value pairs supplied in swapped insertion orders
canonicalize to different byte sequences. -/
theorem C6_key_order :
    (∀ (k : List Char) (v : PyVal) (kvs : List (List Char × PyVal)) (cv : List Char)
        (ckvs : List (List Char)),
      dumpsVal v = some cv → dumpsObjItems kvs = some ckvs →
      dumpsObjItems ((k, v) :: kvs) = some ((encStr k ++ ':' :: cv) :: ckvs)) ∧
    dumpsVal (PyVal.obj [("a".data, PyVal.int 1), ("b".data, PyVal.int 2)]) =
      some "\x7b\"a\":1,\"b\":2\x7d".data ∧
    dumpsVal (PyVal.obj [("b".data, PyVal.int 2), ("a".data, PyVal.int 1)]) =
      some "\x7b\"b\":2,\"a\":1\x7d".data ∧
    dumpsVal (PyVal.obj [("a".data, PyVal.int 1), ("b".data, PyVal.int 2)]) ≠
      dumpsVal (PyVal.obj [("b".data, PyVal.int 2), ("a".data, PyVal.int 1)]) := by
  refine ⟨fun k v kvs cv ckvs h1 h2 => by simp [dumpsObjItems, h1, h2],
    by decide, by decide, by decide⟩

/-- Claim C6 witness: one `key:value` item serialized in place. -/
theorem C6_key_order_witness :
    dumpsObjItems [("a".data, PyVal.int 1)] = some ["\"a\":1".data] :=
  C6_key_order.1 "a".data (PyVal.int 1) [] "1".data [] (by decide) (by decide)

/-- Claim C7: round-trip — verifying a freshly produced signature with the
same secret and bytes accepts (the Verifier recomputes the expected tag via
the same `sign` and compares). -/
theorem C7_round_trip : ∀ (secret : List Char) (canonicalB : List Nat), secret ≠ [] →
    verify secret canonicalB (sign secret canonicalB) = VerifyResult.accept := by
  intro secret b _
  unfold verify
  rw [if_pos rfl]

/-- Claim C7 witness at secret `k` and a one-byte canonical sequence. -/
theorem C7_round_trip_witness :
    "k".data ≠ [] ∧
    verify "k".data [109] (sign "k".data [109]) = VerifyResult.accept :=
  ⟨by decide, C7_round_trip "k".data [109] (by decide)⟩

set_option maxRecDepth 400000 in
/-- Claim C8: the spec example scenario — secret `whsec_test`, sample payload
with keys `a` and `b`: the canonical text is exactly the 15-character compact
JSON object, and the signature is the fixed 64-lowercase-hex string below
(cross-checked against the reference HMAC-SHA256 implementation). -/
theorem C8_example_scenario :
    dumpsVal (PyVal.obj samplePayload) = some "\x7b\"a\":1,\"b\":\"x\"\x7d".data ∧
    generate_signature "whsec_test".data (PayloadArg.dict samplePayload) =
      some "980dcbe85c0ab7ac06da63a247de0c108573533b5de0f5187ea647735ca5146a".data ∧
    ("980dcbe85c0ab7ac06da63a247de0c108573533b5de0f5187ea647735ca5146a".data).length = 64 ∧
    ("980dcbe85c0ab7ac06da63a247de0c108573533b5de0f5187ea647735ca5146a".data).all
      isHexLower = true :=
  ⟨by decide, by decide, by decide, by decide⟩

/-- Claim C9: signing a dict payload equals signing its compact JSON string —
the pre-serialized canonical string takes the non-dict branch verbatim and
hashes to the same signature. -/
theorem C9_dict_vs_string :
    ∀ (secret : List Char) (kvs : List (List Char × PyVal)) (s : List Char),
    dumpsVal (PyVal.obj kvs) = some s →
    generate_signature secret (PayloadArg.dict kvs) =
      generate_signature secret (PayloadArg.str s) := by
  intro secret kvs s h
  unfold generate_signature
  simp [payloadStr, h]

/-- Claim C9 witness at a one-key dict. -/
theorem C9_dict_vs_string_witness :
    dumpsVal (PyVal.obj [("a".data, PyVal.int 1)]) = some "\x7b\"a\":1\x7d".data ∧
    generate_signature "k".data (PayloadArg.dict [("a".data, PyVal.int 1)]) =
      generate_signature "k".data (PayloadArg.str "\x7b\"a\":1\x7d".data) :=
  ⟨by decide,
   C9_dict_vs_string "k".data [("a".data, PyVal.int 1)] "\x7b\"a\":1\x7d".data (by decide)⟩

/-- Claim C10: a non-dict payload (any string) is used verbatim as the
payload string — no JSON serialization, canonicalization or validation is
applied before UTF-8 encoding and hashing. -/
theorem C10_nondict_verbatim : ∀ (secret s : List Char),
    payloadStr (PayloadArg.str s) = some s ∧
    generate_signature secret (PayloadArg.str s) =
      some (hexdigest (hmacSha256 (utf8 secret) (utf8 s))) :=
  fun _ _ => ⟨rfl, rfl⟩

end Webhook
